import Mathlib

/-!
Verification of the Appium extension-manifest subsystem: the `ManifestIO`
store (`packages/appium/lib/manifest-io.js`), the `ExtensionConfig` base
registry (`lib/extension-config.js`) and the `DriverConfig` subclass
(`lib/driver-config.js`).

The JavaScript is shallowly embedded: JS values relevant to the manifest
records are the `Value` type (objects are opaque references, so `Value`
equality models JS strict equality `===`/`!==`); the store's mutable fields
are the `MState` record and `read`/`write` are state-passing functions whose
file-system effects are an explicit event trace; thrown errors are `Except`
over `JsError`, whose constructors carry the data interpolated into the
source's message templates.
-/

namespace Appium

/-- A primitive JS value as it may appear as an element of an array such as
`platformNames`.  Objects are opaque references (`pObj oid`); nested arrays
are not needed by any check the source performs on array elements and are
outside the modelled domain. -/
inductive Prim : Type where
  | pStr (s : String)
  | pNum (n : Int)
  | pBool (b : Bool)
  | pNull
  | pUndefined
  | pObj (oid : Nat)
deriving Repr, DecidableEq

/-- A JS value as it may appear as a field of a manifest record, or as a
record itself inside the manifest's `drivers`/`plugins` mappings.  Objects
are opaque references identified by `oid`, so equality of `Value`s models JS
strict equality (`===`): two distinct objects are never equal, the same
reference always is. -/
inductive Value : Type where
  | vStr (s : String)
  | vNum (n : Int)
  | vBool (b : Bool)
  | vNull
  | vUndefined
  | vList (xs : List Prim)
  | vObj (oid : Nat)
deriving Repr, DecidableEq

/-- Embedding of a primitive into `Value` (used where the source stores an
array element, e.g. as a `Problem`'s offending value). -/
def Prim.toValue : Prim → Value
  | .pStr s => .vStr s
  | .pNum n => .vNum n
  | .pBool b => .vBool b
  | .pNull => .vNull
  | .pUndefined => .vUndefined
  | .pObj oid => .vObj oid

/-- lodash `_.isString` on a `Value`. -/
def Value.isString : Value → Bool
  | .vStr _ => true
  | _ => false

/-- lodash `_.isString` on an array element. -/
def Prim.isString : Prim → Bool
  | .pStr _ => true
  | _ => false

/-- lodash `_.isArray`. -/
def Value.isArray : Value → Bool
  | .vList _ => true
  | _ => false

/-- lodash `_.isPlainObject` (true for plain objects only, not arrays). -/
def Value.isPlainObject : Value → Bool
  | .vObj _ => true
  | _ => false

/-- lodash `_.isObject` (true for objects and arrays alike). -/
def Value.isObject : Value → Bool
  | .vObj _ => true
  | .vList _ => true
  | _ => false

/-- lodash `_.isEmpty` restricted to arrays, as used on `platformNames`. -/
def Value.listIsEmpty : Value → Bool
  | .vList xs => xs.isEmpty
  | _ => false

end Appium

namespace Appium

/-- The error-message templates pushed as `Problem.err` by the validation
code.  Each constructor corresponds to one string template in the source;
constructors carry exactly the data the source interpolates into the
template.  `render` below produces the source's literal text. -/
inductive ErrMsg : Type where
  | missingVersion
  | missingPkgName
  | missingInstallSpec
  | missingInstallType
  | missingInstallPath
  | missingMainClass
  | missingPlatformNames
  | emptyPlatformNames
  | malformedPlatformName
  | missingAutomationName
  | duplicateAutomationName
  | unableToRegisterSchemaAtPath (path : String) (cause : String)
  | unableToRegisterEmbeddedSchema (cause : String)
  | unsupportedSchemaExtension (allowed : List String)
  | malformedSchemaField
deriving Repr, DecidableEq

/-- The literal message text of each template, as written in the source. -/
def ErrMsg.render : ErrMsg → String
  | .missingVersion => "Missing or incorrect version"
  | .missingPkgName => "Missing or incorrect NPM package name"
  | .missingInstallSpec => "Missing or incorrect installation spec"
  | .missingInstallType => "Missing or incorrect install type"
  | .missingInstallPath => "Missing or incorrect installation path"
  | .missingMainClass => "Missing or incorrect driver class name"
  | .missingPlatformNames => "Missing or incorrect supported platformNames list."
  | .emptyPlatformNames => "Empty platformNames list."
  | .malformedPlatformName => "Incorrectly formatted platformName."
  | .missingAutomationName => "Missing or incorrect automationName"
  | .duplicateAutomationName => "Multiple drivers claim support for the same automationName"
  | .unableToRegisterSchemaAtPath path cause =>
      "Unable to register schema at path " ++ path ++ "; " ++ cause
  | .unableToRegisterEmbeddedSchema cause =>
      "Unable to register embedded schema; " ++ cause
  | .unsupportedSchemaExtension allowed =>
      "Schema file has unsupported extension. Allowed: " ++ String.intercalate ", " allowed
  | .malformedSchemaField =>
      "Incorrectly formatted schema field; must be a path to a schema file or a schema object."

/-- A validation finding: `{err: string description, val: the offending
value}` (`extension-config.js`). -/
structure Problem : Type where
  err : ErrMsg
  val : Value
deriving Repr, DecidableEq

/-- A manifest extension record, as destructured by the validation code.
Fields the record does not declare are `vUndefined`, exactly as JS
destructuring of a missing property yields `undefined`. -/
structure ExtData : Type where
  version : Value := .vUndefined
  pkgName : Value := .vUndefined
  installSpec : Value := .vUndefined
  installType : Value := .vUndefined
  installPath : Value := .vUndefined
  mainClass : Value := .vUndefined
  schema : Value := .vUndefined
  automationName : Value := .vUndefined
  platformNames : Value := .vUndefined
deriving Repr, DecidableEq

/-- `INSTALL_TYPES = [INSTALL_TYPE_GIT, INSTALL_TYPE_GITHUB,
INSTALL_TYPE_LOCAL, INSTALL_TYPE_NPM]` (`extension-config.js`). -/
def INSTALL_TYPES : List Value :=
  [.vStr "git", .vStr "github", .vStr "local", .vStr "npm"]

/-- `ExtensionConfig.getGenericConfigProblems` (`extension-config.js`): six
field checks, each pushing one problem, in source order. -/
def getGenericConfigProblems (extData : ExtData) : List Problem :=
  (if extData.version.isString then [] else
    [⟨.missingVersion, extData.version⟩]) ++
  (if extData.pkgName.isString then [] else
    [⟨.missingPkgName, extData.pkgName⟩]) ++
  (if extData.installSpec.isString then [] else
    [⟨.missingInstallSpec, extData.installSpec⟩]) ++
  (if extData.installType ∈ INSTALL_TYPES then [] else
    [⟨.missingInstallType, extData.installType⟩]) ++
  (if extData.installPath.isString then [] else
    [⟨.missingInstallPath, extData.installPath⟩]) ++
  (if extData.mainClass.isString then [] else
    [⟨.missingMainClass, extData.mainClass⟩])

/-- JS `Set.prototype.add`: no-op when the element is already present
(membership is strict-equality based, which `Value` equality models). -/
def setAdd (seen : List Value) (v : Value) : List Value :=
  if v ∈ seen then seen else seen ++ [v]

/-- `DriverConfig.getConfigProblems` (`driver-config.js`): checks
`platformNames` (missing/non-array, empty, per-element string-ness), then
`automationName` string-ness, then the duplicate-`automationName` check
against `this.knownAutomationNames`; finally the name is added to the seen
set unconditionally.  The seen set is threaded explicitly here. -/
def DriverConfig.getConfigProblems (seen : List Value) (extData : ExtData) :
    List Problem × List Value :=
  let platformNames := extData.platformNames
  let automationName := extData.automationName
  let pnProblems : List Problem :=
    match platformNames with
    | .vList elems =>
        if elems.isEmpty then
          [⟨.emptyPlatformNames, platformNames⟩]
        else
          elems.filterMap fun pName =>
            if pName.isString then none
            else some ⟨.malformedPlatformName, pName.toValue⟩
    | _ => [⟨.missingPlatformNames, platformNames⟩]
  let anProblems : List Problem :=
    (if automationName.isString then [] else
      [⟨.missingAutomationName, automationName⟩]) ++
    (if automationName ∈ seen then
      [⟨.duplicateAutomationName, automationName⟩] else [])
  (pnProblems ++ anProblems, setAdd seen automationName)

/-- Modelled from the spec: `ALLOWED_SCHEMA_EXTENSIONS` lives in
`lib/schema/schema.js`, which is not part of the sources at hand; the spec
names `.json`, `.js`, `.cjs` as the allowed schema file extensions. -/
def ALLOWED_SCHEMA_EXTENSIONS : List String := [".json", ".js", ".cjs"]

/-- Modelled from the spec: `isAllowedSchemaFileExtension` from
`lib/schema/schema.js` (not in the sources at hand); per the spec a string
schema path "must end in an allowed schema file extension". -/
def isAllowedSchemaFileExtension (p : String) : Bool :=
  ALLOWED_SCHEMA_EXTENSIONS.any fun ext => ext.data.isSuffixOf p.data

/-- `ExtensionConfig.extDataHasSchema` (`extension-config.js`):
`_.isString(extData?.schema) || _.isObject(extData?.schema)`. -/
def extDataHasSchema (extData : ExtData) : Bool :=
  extData.schema.isString || extData.schema.isObject

/-- The external schema loader/registrar (`readExtensionSchema`, which
resolves, loads and registers the schema): an oracle mapping the extension
name and schema value to success or a thrown error's message. -/
def SchemaReg : Type := String → Value → Except String Unit

/-- `ExtensionConfig.getSchemaProblems` (`extension-config.js`): runs only
when the record declares a schema (`extDataHasSchema`); a string path is
checked for an allowed extension and then loaded/registered, a plain object
is registered directly, anything else (reachable only for non-string
lodash-objects, i.e. arrays here) gets the malformed-schema problem. -/
def getSchemaProblems (reg : SchemaReg) (extData : ExtData) (extName : String) :
    List Problem :=
  let argSchemaPath := extData.schema
  if extDataHasSchema extData then
    match argSchemaPath with
    | .vStr s =>
        if isAllowedSchemaFileExtension s then
          match reg extName argSchemaPath with
          | .ok _ => []
          | .error m => [⟨.unableToRegisterSchemaAtPath s m, argSchemaPath⟩]
        else
          [⟨.unsupportedSchemaExtension ALLOWED_SCHEMA_EXTENSIONS, argSchemaPath⟩]
    | _ =>
        if argSchemaPath.isPlainObject then
          match reg extName argSchemaPath with
          | .ok _ => []
          | .error m => [⟨.unableToRegisterEmbeddedSchema m, argSchemaPath⟩]
        else
          [⟨.malformedSchemaField, argSchemaPath⟩]
  else []

end Appium

namespace Appium

/-- A record mapping (a JS object keyed by extension name), in insertion
order.  JS objects have unique keys; theorems that depend on this carry a
`Nodup` hypothesis on the keys. -/
abbrev ExtRecord : Type := List (String × ExtData)

/-- A per-entry check pipeline: given mutable per-pass state (for
`DriverConfig`, the `knownAutomationNames` seen set) and one `(name, data)`
entry, produce the entry's accumulated problems and the next state. -/
def Checks (σ : Type) : Type := σ → String → ExtData → List Problem × σ

/-- The checks `ExtensionConfig.validate` runs per entry, in source order:
generic checks, then the type-specific hook, then schema checks.  The base
class hook returns no problems and keeps no state. -/
def ExtensionConfig.checks (reg : SchemaReg) : Checks Unit := fun _ extName extData =>
  (getGenericConfigProblems extData ++ [] ++ getSchemaProblems reg extData extName, ())

/-- The checks a `DriverConfig.validate` pass runs per entry:
generic checks, then `DriverConfig.getConfigProblems` (threading the
`knownAutomationNames` seen set), then schema checks. -/
def DriverConfig.checks (reg : SchemaReg) : Checks (List Value) :=
  fun seen extName extData =>
    let (configProblems, seen') := DriverConfig.getConfigProblems seen extData
    (getGenericConfigProblems extData ++ configProblems ++
      getSchemaProblems reg extData extName, seen')

/-- First loop of `ExtensionConfig.validate`: builds `foundProblems`,
pairing every entry with its accumulated problem list, threading the
per-pass state through the entries in mapping order. -/
def collectProblems {σ : Type} (checks : Checks σ) (s : σ) :
    ExtRecord → List ((String × ExtData) × List Problem) × σ
  | [] => ([], s)
  | (extName, extData) :: rest =>
      let r1 := checks s extName extData
      let r2 := collectProblems checks r1.2 rest
      (((extName, extData), r1.1) :: r2.1, r2.2)

/-- JS `delete exts[extName]` on a unique-keys object, as an assoc-list
operation. -/
def eraseKey (exts : ExtRecord) (extName : String) : ExtRecord :=
  exts.filter fun p => p.1 ≠ extName

/-- JSON.stringify as used for a problem's offending value in the report
(abstracted: objects render as a placeholder; the report's text is not the
subject of any claim). -/
def jsonStringify : Value → String
  | .vStr s => "\x22" ++ s ++ "\x22"
  | .vNum n => toString n
  | .vBool b => toString b
  | .vNull => "null"
  | .vUndefined => "undefined"
  | .vList _ => "[...]"
  | .vObj _ => "[object]"

/-- The per-extension lines appended to `problemSummaries` for one invalid
entry (`extension-config.js`, second loop of `validate`). -/
def problemSummariesFor (extensionType : String) (extName : String)
    (problems : List Problem) : List String :=
  (extensionType ++ " " ++ extName ++ " had errors and will not be available. Errors:") ::
    problems.map fun problem =>
      "  - " ++ problem.err.render ++ " (Actual value: " ++ jsonStringify problem.val ++ ")"

/-- Second loop of `ExtensionConfig.validate`: for every name with at least
one problem, delete the entry from the record mapping and append its summary
lines to the report. -/
def prune (extensionType : String) :
    List ((String × ExtData) × List Problem) → ExtRecord → List String →
      ExtRecord × List String
  | [], exts, report => (exts, report)
  | ((extName, _), problems) :: rest, exts, report =>
      if problems.isEmpty then prune extensionType rest exts report
      else prune extensionType rest (eraseKey exts extName)
        (report ++ problemSummariesFor extensionType extName problems)

/-- `ExtensionConfig.validate` (`extension-config.js`): collect problems for
every entry, then prune the entries that had any, emit the report through
the logging sink (the report is returned here), and return the pruned
record mapping.  Per-record problems are data, never exceptions: the
function is total. -/
def ExtensionConfig.validate {σ : Type} (extensionType : String)
    (checks : Checks σ) (s : σ) (exts : ExtRecord) : ExtRecord × List String :=
  let (foundProblems, _) := collectProblems checks s exts
  prune extensionType foundProblems exts []

/-- `DriverConfig.validate` (`driver-config.js`): clears
`knownAutomationNames` (so the incoming seen set `_seen0` is discarded), then
runs the base-class validation with the driver checks. -/
def DriverConfig.validate (reg : SchemaReg) (_seen0 : List Value)
    (exts : ExtRecord) : ExtRecord × List String :=
  ExtensionConfig.validate "driver" (DriverConfig.checks reg) ([] : List Value) exts

end Appium

namespace Appium

/-- A manifest slice (`manifest.drivers` or `manifest.plugins`): a JS object
mapping extension names to record objects, in insertion order. -/
abbrev Smap : Type := List (String × Value)

/-- JS property read `m[k]` (`undefined`-as-`none` when the key is absent). -/
def Smap.get (m : Smap) (k : String) : Option Value :=
  match m.find? (fun p => p.1 = k) with
  | some p => some p.2
  | none => none

/-- JS property write `m[k] = v`: updates in place, or appends preserving
insertion order. -/
def Smap.set (m : Smap) (k : String) (v : Value) : Smap :=
  if (m.find? (fun p => p.1 = k)).isSome then
    m.map fun p => if p.1 = k then (k, v) else p
  else m ++ [(k, v)]

/-- JS `delete m[k]`. -/
def Smap.del (m : Smap) (k : String) : Smap :=
  m.filter fun p => p.1 ≠ k

/-- `prop in target`. -/
def Smap.mem (m : Smap) (k : String) : Bool :=
  (m.get k).isSome

/-- The two extension types (`DRIVER_TYPE`/`PLUGIN_TYPE`, `constants.js`). -/
inductive ExtensionType : Type where
  | driver
  | plugin
deriving Repr, DecidableEq

/-- `CONFIG_SCHEMA_REV = 2` (`manifest-io.js`). -/
def CONFIG_SCHEMA_REV : Int := 2

/-- The store's `_data` once populated: both proxied slices plus
`schemaRev` (`ManifestWithSchemaRev`). -/
structure ManifestData : Type where
  drivers : Smap
  plugins : Smap
  schemaRev : Int
deriving Repr, DecidableEq

/-- The slice of the manifest for one extension type. -/
def ManifestData.slice (d : ManifestData) : ExtensionType → Smap
  | .driver => d.drivers
  | .plugin => d.plugins

/-- Write one slice back. -/
def ManifestData.setSlice (d : ManifestData) : ExtensionType → Smap → ManifestData
  | .driver, m => { d with drivers := m }
  | .plugin, m => { d with plugins := m }

/-- The result of `YAML.parse` on an existing manifest file, restricted to
the fields the source consumes. -/
structure ParsedManifest : Type where
  drivers : Smap := []
  plugins : Smap := []
  schemaRev : Option Int := none

/-- The errors `ManifestIO` throws.  Each constructor stands for one
template in `manifest-io.js`, carrying the interpolated data:
`referenceError msg` for `new ReferenceError(msg)`;
`loadError path cause` for "Appium had trouble loading the extension
installation cache file (`path`). Ensure it exists and is readable.
Specific error: `cause`";
`unknownError cause` for "Appium encountered an unknown problem. Specific
error: `cause`";
`writeError path home cause` for "Appium could not write to manifest at
`path` using APPIUM_HOME `home`. Please ensure it is writable. Original
error: `cause`". -/
inductive JsError : Type where
  | referenceError (msg : String)
  | loadError (path : String) (cause : String)
  | unknownError (cause : String)
  | writeError (path : String) (home : String) (cause : String)
deriving Repr, DecidableEq

/-- A file-system effect performed by the store. -/
inductive Event : Type where
  | mkdirpEvt (dir : String)
  | writeFileEvt (path : String) (content : ManifestData)
deriving Repr, DecidableEq

/-- `path.dirname` for `/`-separated paths (simplified at edge cases the
claims never exercise: no drive letters, `"."` for bare names). -/
def dirname (p : String) : String :=
  let parts := p.splitOn "/"
  if parts.length ≤ 1 then "." else String.intercalate "/" parts.dropLast

/-- The mutable fields of a `ManifestIO` instance between settled
operations: `_dirty` (declared uninitialized, hence falsy), `_data`,
`_manifestPath`.  The in-flight `_reading`/`_writing` handles are `null`
whenever no call is in flight; each modelled call below covers one settled
`read()`/`write()` invocation, whose `finally` clauses restore the handle to
`null`, so they do not appear as state here. -/
structure MState : Type where
  _dirty : Bool := false
  _data : Option ManifestData := none
  _manifestPath : Option String := none
deriving Repr, DecidableEq

/-- A fresh store, as built by `new ManifestIO(appiumHome)`. -/
def MState.init : MState := {}

/-- JS truthiness of the (possibly unresolved) manifest path, as tested by
`if (this._manifestPath)`: `undefined` and the empty string are falsy. -/
def pathTruthy : Option String → Bool
  | some p => p ≠ ""
  | none => false

/-- Environment for one `write()` call: the result `env.getManifestPath`
would produce if the path is not yet cached, and whether the `mkdirp` or
`fs.writeFile` step throws (with the thrown error's message). -/
structure WriteFs : Type where
  getPath : String := ""
  mkdirpFail : Option String := none
  writeFail : Option String := none

/-- `ManifestIO.write(force)` (`manifest-io.js`), covering one settled call
entered while no write is in flight.  Order as in the source: the
dirty/force check precedes the no-data guard; on the file-system branch
`mkdirp(path.dirname(path))` runs before `fs.writeFile`; on success the
dirty flag clears and the call resolves `true`; on file-system failure the
call rejects with the write-error template and the dirty flag is left as it
was.  The `finally` clears `_writing` in every branch. -/
def ManifestIo.write (appiumHome : String) (fs : WriteFs) (s : MState)
    (force : Bool) : Except JsError Bool × MState × List Event :=
  if s._dirty = false ∧ force = false then
    (.ok false, s, [])
  else
    match s._data with
    | none => (.error (.referenceError "No data to write. Call `read()` first"), s, [])
    | some d =>
        let path := s._manifestPath.getD fs.getPath
        let s1 := { s with _manifestPath := some path }
        match fs.mkdirpFail with
        | some m => (.error (.writeError path appiumHome m), s1, [])
        | none =>
            match fs.writeFail with
            | some m =>
                (.error (.writeError path appiumHome m), s1, [.mkdirpEvt (dirname path)])
            | none =>
                (.ok true, { s1 with _dirty := false },
                  [.mkdirpEvt (dirname path), .writeFileEvt path d])

/-- What `fs.readFile` + `YAML.parse` produce for one `read()` call:
the file is absent (`err.code === 'ENOENT'`), some other failure was thrown
(carrying its message), or the file parsed. -/
inductive FileReadResult : Type where
  | enoent
  | failure (cause : String)
  | content (p : ParsedManifest)

/-- Environment for one `read()` call: the result `env.getManifestPath`
resolves to (`none` models a falsy/unresolved result), the file-read
outcome, and the file-system behavior of the bootstrap `write(true)`. -/
structure ReadEnv : Type where
  getPath : Option String
  file : FileReadResult
  wfs : WriteFs := {}

/-- `ManifestIO.read(force)` (`manifest-io.js`), covering one settled call
entered while no read is in flight.  If `_data` is populated and `force` is
false the cached manifest returns with no I/O.  Otherwise the path is
resolved (kept if already cached), the file is read and parsed; `ENOENT`
synthesizes `{drivers: {}, plugins: {}}` and marks a fresh file; any other
failure rethrows the load-error template when the path is truthy, else the
unknown-error template.  `_data` is then built with the proxied slices and
`schemaRev` defaulted to `CONFIG_SCHEMA_REV`, and a fresh file triggers
`write(true)` before the call resolves. -/
def ManifestIo.read (appiumHome : String) (env : ReadEnv) (s : MState)
    (force : Bool) : Except JsError ManifestData × MState × List Event :=
  match s._data, force with
  | some d, false => (.ok d, s, [])
  | _, _ =>
      let path? := s._manifestPath <|> env.getPath
      let s1 := { s with _manifestPath := path? }
      match env.file with
      | .content p =>
          let d : ManifestData := ⟨p.drivers, p.plugins, p.schemaRev.getD CONFIG_SCHEMA_REV⟩
          (.ok d, { s1 with _data := some d }, [])
      | .failure cause =>
          match path? with
          | some path =>
              if path ≠ "" then (.error (.loadError path cause), s1, [])
              else (.error (.unknownError cause), s1, [])
          | none => (.error (.unknownError cause), s1, [])
      | .enoent =>
          let d : ManifestData := ⟨[], [], CONFIG_SCHEMA_REV⟩
          let s2 := { s1 with _data := some d }
          match ManifestIo.write appiumHome env.wfs s2 true with
          | (.ok _, s3, events) => (.ok d, s3, events)
          | (.error e, s3, events) => (.error e, s3, events)

/-- The proxy `set` trap installed by `ManifestIO._createProxy` on one
slice: sets `_dirty` when the assigned value differs (strict equality) from
the current one — JS reads `undefined` for an absent key — and stores the
value either way. -/
def ManifestIo.proxySet (t : ExtensionType) (s : MState) (prop : String)
    (value : Value) : MState :=
  match s._data with
  | none => s
  | some d =>
      let target := d.slice t
      let current := (target.get prop).getD .vUndefined
      let dirty' := if value ≠ current then true else s._dirty
      { s with _dirty := dirty', _data := some (d.setSlice t (target.set prop value)) }

/-- The proxy `deleteProperty` trap installed by `ManifestIO._createProxy`:
sets `_dirty` exactly when the key is present (`prop in target`), then
deletes. -/
def ManifestIo.proxyDelete (t : ExtensionType) (s : MState) (prop : String) :
    MState :=
  match s._data with
  | none => s
  | some d =>
      let target := d.slice t
      let dirty' := if target.mem prop then true else s._dirty
      { s with _dirty := dirty', _data := some (d.setSlice t (target.del prop)) }

end Appium

namespace Appium

/-- The registry state relevant to the claims: `ExtensionConfig`'s
constructor (`extension-config.js`) runs `this.installedExtensions = {}`.
Neither the constructor chain (`DriverConfig`/`PluginConfig` only call
`this.validate(extData)` on the slice they are given) nor `validate` ever
assigns that `extData` to `installedExtensions`, so the registry's mapping
starts as a fresh empty object, distinct from the store's manifest slice. -/
structure Registry : Type where
  installedExtensions : Smap := []
deriving Repr, DecidableEq

/-- `new ExtensionConfig(...)` / `new DriverConfig(...)`: the record mapping
is the fresh `{}`. -/
def Registry.init : Registry := {}

/-- The deletions `validate` performs on the slice it was given (invalid
entries are removed with `delete exts[extName]`, which goes through the
store's proxy).  Which names are invalid depends on the opaque record
objects, so the set of pruned names is a parameter here. -/
def proxyDeleteAll (t : ExtensionType) (s : MState) (names : List String) : MState :=
  names.foldl (ManifestIo.proxyDelete t) s

/-- The `ExtensionConfigs` object returned by `loadExtensions`. -/
structure LoadedExtensions : Type where
  io : MState
  driverConfig : Registry
  pluginConfig : Registry
deriving Repr, DecidableEq

/-- `loadExtensions(appiumHome)` (`manifest-io.js`): get the store for
`appiumHome`, `read()` it, then `DriverConfig.create(io, {extData: drivers})`
and `PluginConfig.create(io, {extData: plugins})`.  Each `create` validates
the slice it is passed (possibly pruning invalid entries through the proxy —
`invalidNames` parameterizes which) and leaves the new registry's
`installedExtensions` as the constructor's fresh `{}`. -/
def loadExtensions (appiumHome : String) (env : ReadEnv)
    (invalidNames : ExtensionType → List String) :
    Except JsError LoadedExtensions × List Event :=
  match ManifestIo.read appiumHome env MState.init false with
  | (.ok _, s, events) =>
      let s1 := proxyDeleteAll .driver s (invalidNames .driver)
      let s2 := proxyDeleteAll .plugin s1 (invalidNames .plugin)
      (.ok ⟨s2, Registry.init, Registry.init⟩, events)
  | (.error e, _, events) => (.error e, events)

/-- `ExtensionConfig.addExtension` (`extension-config.js`):
`this.installedExtensions[extName] = extData; await this.io.write();`.
The assignment targets the registry's own `installedExtensions` object (the
constructor's fresh `{}`), not the store's proxied slice, so no proxy trap
runs; then the store's `write()` is invoked with no arguments. -/
def Registry.addExtension (r : Registry) (io : MState) (appiumHome : String)
    (fs : WriteFs) (extName : String) (extData : Value) :
    Registry × (Except JsError Bool × MState × List Event) :=
  (⟨r.installedExtensions.set extName extData⟩,
    ManifestIo.write appiumHome fs io false)

/-- `ExtensionConfig.removeExtension`: `delete
this.installedExtensions[extName]; await this.io.write();` — again on the
registry's own mapping, not the proxied slice. -/
def Registry.removeExtension (r : Registry) (io : MState) (appiumHome : String)
    (fs : WriteFs) (extName : String) :
    Registry × (Except JsError Bool × MState × List Event) :=
  (⟨r.installedExtensions.del extName⟩,
    ManifestIo.write appiumHome fs io false)

/-- The three `platformNames`-related problem kinds of
`DriverConfig.getConfigProblems`. -/
def isPlatformProblem (p : Problem) : Bool :=
  match p.err with
  | .missingPlatformNames => true
  | .emptyPlatformNames => true
  | .malformedPlatformName => true
  | _ => false

/-- The per-entry problem lists of one driver validation pass, in entry
order (the `foundProblems` values of `ExtensionConfig.validate` under
`DriverConfig`'s checks, starting from the cleared seen set). -/
def driverPassProblems (reg : SchemaReg) (exts : ExtRecord) : List (List Problem) :=
  ((collectProblems (DriverConfig.checks reg) ([] : List Value) exts).1).map (·.2)

/-- A schema registrar oracle that always succeeds. -/
def regOk : SchemaReg := fun _ _ => .ok ()

end Appium

namespace Appium

/-- C4: on a store on which `read()` was never called (no data loaded, no
write in flight), `write(true)` rejects with the programmer-misuse
`ReferenceError` ("No data to write. Call `read()` first"), while `write()`
without force resolves `false` with no error and performs no file-system
I/O (empty event trace). -/
theorem C4_write_before_read (appiumHome : String) (fs : WriteFs) :
    ManifestIo.write appiumHome fs MState.init true =
      (.error (.referenceError "No data to write. Call `read()` first"),
        MState.init, []) ∧
    ManifestIo.write appiumHome fs MState.init false =
      (.ok false, MState.init, []) :=
  ⟨rfl, rfl⟩

/-- C2: when the manifest file is absent (`ENOENT`), `read()` returns the
manifest `drivers: {}, plugins: {}, schemaRev: 2` and the trace holds
exactly one file write — of that content, to the resolved path `p`, with
`mkdirp` of the parent directory immediately before it.  When the file
exists and parses, the returned `schemaRev` is the parsed value when
present and `2` when absent. -/
theorem C2_new_file_bootstrap_and_schemaRev (appiumHome p g : String)
    (drv plg : Smap) (rev : Int) :
    ManifestIo.read appiumHome ⟨some p, .enoent, ⟨g, none, none⟩⟩ MState.init false =
      (.ok ⟨[], [], 2⟩, ⟨false, some ⟨[], [], 2⟩, some p⟩,
        [.mkdirpEvt (dirname p), .writeFileEvt p ⟨[], [], 2⟩]) ∧
    (ManifestIo.read appiumHome ⟨some p, .content ⟨drv, plg, some rev⟩, {}⟩
        MState.init false).1 = .ok ⟨drv, plg, rev⟩ ∧
    (ManifestIo.read appiumHome ⟨some p, .content ⟨drv, plg, none⟩, {}⟩
        MState.init false).1 = .ok ⟨drv, plg, 2⟩ :=
  ⟨rfl, rfl, rfl⟩

/-- C10: when the file-system step of `write()` fails (either `mkdirp` or
`fs.writeFile`), the call rejects with the write-error template naming the
manifest path and the `APPIUM_HOME` directory, the dirty flag is NOT
cleared, and — the in-flight handle having been cleared by the `finally` —
a subsequent `write()` performs a fresh attempt that persists the same
pending data instead of resolving `false`. -/
theorem C10_write_failure_retains_dirty (appiumHome g g' path cause : String)
    (d : ManifestData) :
    ManifestIo.write appiumHome ⟨g, none, some cause⟩ ⟨true, some d, some path⟩ false =
      (.error (.writeError path appiumHome cause), ⟨true, some d, some path⟩,
        [.mkdirpEvt (dirname path)]) ∧
    ManifestIo.write appiumHome ⟨g, some cause, none⟩ ⟨true, some d, some path⟩ false =
      (.error (.writeError path appiumHome cause), ⟨true, some d, some path⟩, []) ∧
    ManifestIo.write appiumHome ⟨g', none, none⟩ ⟨true, some d, some path⟩ false =
      (.ok true, ⟨false, some d, some path⟩,
        [.mkdirpEvt (dirname path), .writeFileEvt path d]) :=
  ⟨rfl, rfl, rfl⟩

/-- C9: a `read()` whose file load/parse fails for a reason other than
nonexistence rejects with the load-error template naming the resolved path
and carrying the cause's message; when the path resolved to a falsy value
(`undefined`, or the empty string), it rejects with the generic
unknown-error template wrapping the cause. -/
theorem C9_read_failure_modes (appiumHome p cause : String) (wfs : WriteFs)
    (hp : p ≠ "") :
    ManifestIo.read appiumHome ⟨some p, .failure cause, wfs⟩ MState.init false =
      (.error (.loadError p cause), ⟨false, none, some p⟩, []) ∧
    ManifestIo.read appiumHome ⟨none, .failure cause, wfs⟩ MState.init false =
      (.error (.unknownError cause), ⟨false, none, none⟩, []) ∧
    ManifestIo.read appiumHome ⟨some "", .failure cause, wfs⟩ MState.init false =
      (.error (.unknownError cause), ⟨false, none, some ""⟩, []) := by
  refine ⟨?_, rfl, rfl⟩
  simp only [ManifestIo.read, Option.orElse_none, MState.init]
  simp [hp]

/-- Witness for C9 at a concrete path and cause. -/
theorem C9_read_failure_modes_witness :
    ("/h/extensions.yaml" : String) ≠ "" ∧
    ManifestIo.read "/h" ⟨some "/h/extensions.yaml", .failure "boom", {}⟩
        MState.init false =
      (.error (.loadError "/h/extensions.yaml" "boom"),
        ⟨false, none, some "/h/extensions.yaml"⟩, []) :=
  ⟨by decide,
    (C9_read_failure_modes "/h" "/h/extensions.yaml" "boom" {} (by decide)).1⟩

end Appium

namespace Appium

/-- C3: on a store whose manifest has been read (`_data` populated):
assigning through the slice proxy a value different (strict equality; JS
reads `undefined` for an absent key) from the current one sets the dirty
flag, as does deleting a present key; assigning the current value or
deleting an absent key leaves the flag as it was (plain reads are pure
functions of the state and cannot touch it).  When the flag is set,
`write()` resolves `true` and the trace holds the file write; when it is
clear and no force is given, `write()` resolves `false` with an empty
trace. -/
theorem C3_dirty_tracking (t : ExtensionType) (s : MState) (d : ManifestData)
    (k : String) (v : Value) (appiumHome : String) (fs : WriteFs)
    (hd : s._data = some d) :
    (v ≠ ((d.slice t).get k).getD .vUndefined →
       (ManifestIo.proxySet t s k v)._dirty = true) ∧
    (v = ((d.slice t).get k).getD .vUndefined →
       (ManifestIo.proxySet t s k v)._dirty = s._dirty) ∧
    ((d.slice t).mem k = true → (ManifestIo.proxyDelete t s k)._dirty = true) ∧
    ((d.slice t).mem k = false → (ManifestIo.proxyDelete t s k)._dirty = s._dirty) ∧
    (s._dirty = true → fs.mkdirpFail = none → fs.writeFail = none →
       ManifestIo.write appiumHome fs s false =
         (.ok true,
           { s with _dirty := false,
                    _manifestPath := some (s._manifestPath.getD fs.getPath) },
           [.mkdirpEvt (dirname (s._manifestPath.getD fs.getPath)),
            .writeFileEvt (s._manifestPath.getD fs.getPath) d])) ∧
    (s._dirty = false → ManifestIo.write appiumHome fs s false = (.ok false, s, [])) := by
  refine ⟨?_, ?_, ?_, ?_, ?_, ?_⟩
  · intro h
    simp [ManifestIo.proxySet, hd, h]
  · intro h
    simp [ManifestIo.proxySet, hd, h]
  · intro h
    simp [ManifestIo.proxyDelete, hd, h]
  · intro h
    simp [ManifestIo.proxyDelete, hd, h]
  · intro h hm hw
    simp [ManifestIo.write, hd, h, hm, hw]
  · intro h
    simp [ManifestIo.write, h]

/-- Witness for C3: assigning a fresh record object under a new key marks
the store dirty. -/
theorem C3_dirty_tracking_witness :
    (⟨false, some ⟨[("a", .vObj 1)], [], 2⟩, some "/h/extensions.yaml"⟩ :
        MState)._data = some ⟨[("a", .vObj 1)], [], 2⟩ ∧
    (ManifestIo.proxySet .driver
        ⟨false, some ⟨[("a", .vObj 1)], [], 2⟩, some "/h/extensions.yaml"⟩
        "foo" (.vObj 2))._dirty = true :=
  ⟨rfl,
    (C3_dirty_tracking .driver _ ⟨[("a", .vObj 1)], [], 2⟩ "foo" (.vObj 2)
        "/h" {} rfl).1 (by decide)⟩

/-- C1 (code bug): after `loadExtensions` on an existing empty manifest, the
driver registry's `installedExtensions` is the constructor's fresh empty
object, not the store's `drivers` slice; `addExtension('foo', rec)` mutates
only that separate object, the store's proxy never fires, the store stays
clean and its forced-nothing `write()` resolves `false` with no file
write — the documented "mutations go through the registry and trigger a
write" flow does not persist anything. -/
theorem C1_addExtension_does_not_persist :
    loadExtensions "/h" ⟨some "/h/extensions.yaml", .content ⟨[], [], some 2⟩, {}⟩
        (fun _ => []) =
      (.ok ⟨⟨false, some ⟨[], [], 2⟩, some "/h/extensions.yaml"⟩,
        ⟨[]⟩, ⟨[]⟩⟩, []) ∧
    Registry.addExtension ⟨[]⟩
        ⟨false, some ⟨[], [], 2⟩, some "/h/extensions.yaml"⟩ "/h" {} "foo" (.vObj 7) =
      (⟨[("foo", .vObj 7)]⟩,
        (.ok false, ⟨false, some ⟨[], [], 2⟩, some "/h/extensions.yaml"⟩, [])) :=
  ⟨rfl, rfl⟩

end Appium

namespace Appium

/-- C7: among the problems `DriverConfig.getConfigProblems` raises, the
`platformNames`-related ones are: exactly one missing/incorrect-type
problem when the value is not an array; exactly one empty-list problem
when it is the empty array (and no per-element problems); and, for a
non-empty array, exactly one malformed-element problem per non-string
element, in element order, and none for string elements. -/
theorem C7_platformNames_problems (seen : List Value) (d : ExtData) :
    (d.platformNames.isArray = false →
       ((DriverConfig.getConfigProblems seen d).1.filter isPlatformProblem) =
         [⟨.missingPlatformNames, d.platformNames⟩]) ∧
    (d.platformNames = .vList [] →
       ((DriverConfig.getConfigProblems seen d).1.filter isPlatformProblem) =
         [⟨.emptyPlatformNames, .vList []⟩]) ∧
    (∀ xs, xs ≠ [] → d.platformNames = .vList xs →
       ((DriverConfig.getConfigProblems seen d).1.filter isPlatformProblem) =
         (xs.filter fun e => !e.isString).map
           fun e => ⟨.malformedPlatformName, e.toValue⟩) := by
  have hfm : ∀ xs : List Prim,
      ((xs.filterMap fun pName => if pName.isString then none
          else some (⟨.malformedPlatformName, pName.toValue⟩ : Problem)).filter
        isPlatformProblem) =
      (xs.filter fun e => !e.isString).map
        fun e => (⟨.malformedPlatformName, e.toValue⟩ : Problem) := by
    intro xs
    induction xs with
    | nil => rfl
    | cons x xs ih => cases hx : x.isString <;> simp [hx, ih, isPlatformProblem]
  have han : ((if d.automationName.isString then ([] : List Problem) else
        [⟨.missingAutomationName, d.automationName⟩]) ++
      (if d.automationName ∈ seen then
        ([⟨.duplicateAutomationName, d.automationName⟩] : List Problem) else [])).filter
        isPlatformProblem = [] := by
    split_ifs <;> simp [isPlatformProblem]
  refine ⟨?_, ?_, ?_⟩
  · intro h
    cases hpn : d.platformNames <;>
      simp_all [DriverConfig.getConfigProblems, Value.isArray, isPlatformProblem,
        List.filter_append, han]
  · intro h
    simp [DriverConfig.getConfigProblems, h, List.filter_append, han, isPlatformProblem]
  · intro xs hxs h
    simp [DriverConfig.getConfigProblems, h, List.filter_append, han, hfm, hxs,
      isPlatformProblem]

/-- Witness for C7: `platformNames: ["ios", 5]` yields exactly the one
malformed-element problem for the non-string entry. -/
theorem C7_platformNames_problems_witness :
    ([Prim.pStr "ios", Prim.pNum 5] ≠ ([] : List Prim)) ∧
    ((DriverConfig.getConfigProblems []
        { platformNames := .vList [.pStr "ios", .pNum 5] }).1.filter
      isPlatformProblem) = [⟨.malformedPlatformName, .vNum 5⟩] :=
  ⟨by decide,
    ((C7_platformNames_problems [] { platformNames := .vList [.pStr "ios", .pNum 5] }).2.2
      [.pStr "ios", .pNum 5] (by decide) rfl).trans (by decide)⟩

end Appium

namespace Appium

/-- Counterexample to C8 as stated: a record whose declared `schema` field
holds a number (or a boolean) — "neither a string nor an object" — yields
NO problem at all: `extDataHasSchema` (`_.isString || _.isObject`) is false
for primitives, so `getSchemaProblems` never reaches its malformed-schema
branch and returns the empty list, contradicting "validation raises a
malformed-schema problem for that record". -/
theorem C8_counterexample :
    getSchemaProblems regOk { schema := .vNum 5 } "foo" = [] ∧
    getSchemaProblems regOk { schema := .vBool true } "foo" = [] :=
  ⟨rfl, rfl⟩

/-- C8 amended: the malformed-schema problem is raised exactly when the
declared `schema` passes the `extDataHasSchema` guard (string or lodash
object) yet is neither a string nor a plain object — i.e. an array here; a
primitive `schema` (number, boolean, null, undefined) raises no schema
problem at all; and a string `schema` not ending in an allowed schema file
extension raises the problem naming the allowed extensions. -/
theorem C8_schema_problems (reg : SchemaReg) (d : ExtData) (name : String) :
    (∀ xs, d.schema = .vList xs →
       getSchemaProblems reg d name = [⟨.malformedSchemaField, d.schema⟩]) ∧
    (∀ n : Int, d.schema = .vNum n → getSchemaProblems reg d name = []) ∧
    (∀ b : Bool, d.schema = .vBool b → getSchemaProblems reg d name = []) ∧
    (d.schema = .vNull → getSchemaProblems reg d name = []) ∧
    (d.schema = .vUndefined → getSchemaProblems reg d name = []) ∧
    (∀ str, d.schema = .vStr str → isAllowedSchemaFileExtension str = false →
       getSchemaProblems reg d name =
         [⟨.unsupportedSchemaExtension ALLOWED_SCHEMA_EXTENSIONS, d.schema⟩]) := by
  refine ⟨?_, ?_, ?_, ?_, ?_, ?_⟩
  · intro xs h
    simp [getSchemaProblems, extDataHasSchema, h, Value.isString, Value.isObject,
      Value.isPlainObject]
  · intro n h
    simp [getSchemaProblems, extDataHasSchema, h, Value.isString, Value.isObject]
  · intro b h
    simp [getSchemaProblems, extDataHasSchema, h, Value.isString, Value.isObject]
  · intro h
    simp [getSchemaProblems, extDataHasSchema, h, Value.isString, Value.isObject]
  · intro h
    simp [getSchemaProblems, extDataHasSchema, h, Value.isString, Value.isObject]
  · intro str h hext
    simp [getSchemaProblems, extDataHasSchema, h, Value.isString, Value.isObject, hext]

/-- Witness for the amended C8: an array schema gets the malformed-schema
problem; a `.yaml` schema path gets the problem naming the allowed
extensions. -/
theorem C8_schema_problems_witness :
    getSchemaProblems regOk { schema := .vList [] } "x" =
      [⟨.malformedSchemaField, .vList []⟩] ∧
    (isAllowedSchemaFileExtension "schema.yaml" = false ∧
      getSchemaProblems regOk { schema := .vStr "schema.yaml" } "x" =
        [⟨.unsupportedSchemaExtension ALLOWED_SCHEMA_EXTENSIONS, .vStr "schema.yaml"⟩]) :=
  ⟨(C8_schema_problems regOk { schema := .vList [] } "x").1 [] rfl,
    by decide,
    (C8_schema_problems regOk { schema := .vStr "schema.yaml" } "x").2.2.2.2.2
      "schema.yaml" rfl (by decide)⟩

end Appium

namespace Appium

/-- Unfolding `DriverConfig.checks`: the per-entry problems are the generic
checks, then the driver checks, then the schema checks. -/
theorem DriverConfig.checks_fst (reg : SchemaReg) (seen : List Value)
    (n : String) (d : ExtData) :
    (DriverConfig.checks reg seen n d).1 =
      getGenericConfigProblems d ++ (DriverConfig.getConfigProblems seen d).1 ++
        getSchemaProblems reg d n := rfl

/-- Unfolding `DriverConfig.checks`: the seen set always grows by the
record's `automationName`. -/
theorem DriverConfig.checks_snd (reg : SchemaReg) (seen : List Value)
    (n : String) (d : ExtData) :
    (DriverConfig.checks reg seen n d).2 = setAdd seen d.automationName := rfl

/-- Membership in a JS `Set` after `add`. -/
theorem setAdd_mem_iff (seen : List Value) (w v : Value) :
    v ∈ setAdd seen w ↔ v ∈ seen ∨ v = w := by
  unfold setAdd
  split_ifs with h
  · constructor
    · exact fun hv => Or.inl hv
    · rintro (hv | rfl) <;> assumption
  · simp

/-- The generic field checks never produce the duplicate-capability
problem. -/
theorem dup_not_mem_generic (d : ExtData) (v : Value) :
    (⟨.duplicateAutomationName, v⟩ : Problem) ∉ getGenericConfigProblems d := by
  unfold getGenericConfigProblems
  split_ifs <;> simp

/-- The schema checks never produce the duplicate-capability problem. -/
theorem dup_not_mem_schema (reg : SchemaReg) (d : ExtData) (n : String)
    (v : Value) :
    (⟨.duplicateAutomationName, v⟩ : Problem) ∉ getSchemaProblems reg d n := by
  cases hs : d.schema <;>
    simp [getSchemaProblems, extDataHasSchema, hs, Value.isString, Value.isObject,
      Value.isPlainObject] <;>
    (try split_ifs) <;>
    (try split) <;> simp

/-- `DriverConfig.getConfigProblems` raises the duplicate-capability
problem exactly when the record's `automationName` is already in the seen
set (the problem's offending value being that name). -/
theorem dup_not_mem_pn_elems (xs : List Prim) (v : Value) :
    (⟨.duplicateAutomationName, v⟩ : Problem) ∉
      xs.filterMap fun pName => if pName.isString then none
        else some ⟨.malformedPlatformName, pName.toValue⟩ := by
  simp only [List.mem_filterMap, not_exists]
  intro a
  rintro ⟨-, ha⟩
  revert ha
  split_ifs <;> simp

/-- `DriverConfig.getConfigProblems` raises the duplicate-capability
problem exactly when the automationName of the record is already in the seen
set (the offending value of the problem being that name). -/
theorem dup_mem_getConfigProblems (seen : List Value) (d : ExtData) (v : Value) :
    (⟨.duplicateAutomationName, v⟩ : Problem) ∈
        (DriverConfig.getConfigProblems seen d).1 ↔
      v = d.automationName ∧ d.automationName ∈ seen := by
  cases hpn : d.platformNames <;>
    simp [DriverConfig.getConfigProblems, hpn, dup_not_mem_pn_elems] <;>
    (try split_ifs) <;>
    (try simp [dup_not_mem_pn_elems]) <;>
    tauto

/-- Membership of the duplicate-capability problem in one entry's full
problem list. -/
theorem dup_mem_checks (reg : SchemaReg) (seen : List Value) (n : String)
    (d : ExtData) (v : Value) :
    (⟨.duplicateAutomationName, v⟩ : Problem) ∈ (DriverConfig.checks reg seen n d).1 ↔
      v = d.automationName ∧ d.automationName ∈ seen := by
  rw [DriverConfig.checks_fst]
  simp [List.mem_append, dup_not_mem_generic, dup_not_mem_schema,
    dup_mem_getConfigProblems, (dup_not_mem_generic d v), (dup_not_mem_schema reg d n v)]

/-- Unfolding `collectProblems` on a cons cell. -/
theorem collectProblems_cons {σ : Type} (checks : Checks σ) (s : σ)
    (n : String) (d : ExtData) (rest : ExtRecord) :
    collectProblems checks s ((n, d) :: rest) =
      (((n, d), (checks s n d).1) ::
          (collectProblems checks (checks s n d).2 rest).1,
        (collectProblems checks (checks s n d).2 rest).2) := rfl

/-- The threaded seen set only grows along a pass. -/
theorem collect_seen_mono (reg : SchemaReg) (exts : ExtRecord) :
    ∀ (seen : List Value) (v : Value), v ∈ seen →
      v ∈ (collectProblems (DriverConfig.checks reg) seen exts).2 := by
  induction exts with
  | nil => intro seen v hv; exact hv
  | cons e rest ih =>
      intro seen v hv
      rcases e with ⟨n, d⟩
      rw [collectProblems_cons]
      exact ih _ v ((setAdd_mem_iff _ _ _).mpr (Or.inl hv))

/-- Positional form of the duplicate-capability rule, generalized over the
incoming seen set. -/
theorem dup_iff_aux (reg : SchemaReg) (exts : ExtRecord) :
    ∀ (seen : List Value) (j : Nat) (hj : j < exts.length),
      ((⟨.duplicateAutomationName, (exts.get ⟨j, hj⟩).2.automationName⟩ : Problem) ∈
          (((collectProblems (DriverConfig.checks reg) seen exts).1.map (·.2)).getD j []) ↔
        ((exts.get ⟨j, hj⟩).2.automationName ∈ seen ∨
          (exts.get ⟨j, hj⟩).2.automationName ∈
            (exts.take j).map fun e => e.2.automationName)) := by
  induction exts with
  | nil => intro seen j hj; exact absurd hj (by simp)
  | cons e rest ih =>
      intro seen j hj
      rcases e with ⟨n, d⟩
      rw [collectProblems_cons]
      cases j with
      | zero =>
          simp only [List.map_cons, List.getD_cons_zero, List.get, List.take,
            List.map_nil, List.not_mem_nil, or_false]
          rw [dup_mem_checks]
          simp
      | succ j =>
          have hj' : j < rest.length := by simpa using hj
          simp only [List.map_cons, List.getD_cons_succ, List.get, List.take,
            List.map_cons, List.mem_cons]
          rw [ih (DriverConfig.checks reg seen n d).2 j hj',
            DriverConfig.checks_snd, setAdd_mem_iff]
          tauto

end Appium

namespace Appium

/-- Every automationName of the pass ends up in the final seen set,
whatever the incoming seen set. -/
theorem collect_seen_contains (reg : SchemaReg) (exts : ExtRecord) :
    ∀ (seen : List Value), ∀ e ∈ exts, e.2.automationName ∈
      (collectProblems (DriverConfig.checks reg) seen exts).2 := by
  induction exts with
  | nil => intro seen e he; cases he
  | cons e' rest ih =>
      intro seen e he
      rcases e' with ⟨n, d⟩
      rw [collectProblems_cons]
      rcases List.mem_cons.mp he with h | h
      · subst h
        exact collect_seen_mono reg rest _ _
          (by rw [DriverConfig.checks_snd]
              exact (setAdd_mem_iff _ _ _).mpr (Or.inr rfl))
      · exact ih _ e h

/-- C6: within a single `DriverConfig.validate()` pass, the record at
position `j` gets the duplicate-capability problem exactly when its
`automationName` equals that of some strictly earlier record of the pass
(so the first occurrence is never flagged); every record ends up with its
`automationName` in the seen set regardless of its other problems;
and the seen set is cleared at the start of `validate`, so the result is
independent of the `knownAutomationNames` left by any previous pass. -/
theorem C6_duplicate_automationName (reg : SchemaReg) (exts : ExtRecord)
    (j : Nat) (hj : j < exts.length) (seen0 seen1 : List Value) :
    ((⟨.duplicateAutomationName, (exts.get ⟨j, hj⟩).2.automationName⟩ : Problem) ∈
        (driverPassProblems reg exts).getD j [] ↔
      (exts.get ⟨j, hj⟩).2.automationName ∈
        (exts.take j).map fun e => e.2.automationName) ∧
    (∀ e ∈ exts, e.2.automationName ∈
        (collectProblems (DriverConfig.checks reg) ([] : List Value) exts).2) ∧
    DriverConfig.validate reg seen0 exts = DriverConfig.validate reg seen1 exts := by
  refine ⟨?_, ?_, rfl⟩
  · have h := dup_iff_aux reg exts ([] : List Value) j hj
    simpa [driverPassProblems] using h
  · exact fun e he => collect_seen_contains reg exts ([] : List Value) e he

end Appium

namespace Appium

/-- Witness for C6: two driver records sharing `automationName`
"XCUITest" — the second receives the duplicate-capability problem in the
same pass. -/
theorem C6_duplicate_automationName_witness :
    (1 < ([("d1", { automationName := .vStr "XCUITest" }),
           ("d2", { automationName := .vStr "XCUITest" })] : ExtRecord).length) ∧
    (⟨.duplicateAutomationName, .vStr "XCUITest"⟩ : Problem) ∈
      (driverPassProblems regOk
        [("d1", { automationName := .vStr "XCUITest" }),
         ("d2", { automationName := .vStr "XCUITest" })]).getD 1 [] :=
  ⟨by decide,
    (C6_duplicate_automationName regOk
        [("d1", { automationName := .vStr "XCUITest" }),
         ("d2", { automationName := .vStr "XCUITest" })]
        1 (by decide) [] []).1.mpr (by decide)⟩

end Appium

namespace Appium

/-- The deletion loop of `validate` acts as a filter: the final mapping
keeps exactly the input entries whose key is not among the names that
accumulated problems. -/
theorem prune_fst_eq_filter (ty : String) :
    ∀ (fp : List ((String × ExtData) × List Problem)) (exts : ExtRecord)
      (report : List String),
      (prune ty fp exts report).1 =
        exts.filter fun p =>
          p.1 ∉ (fp.filter fun e => !e.2.isEmpty).map fun e => e.1.1 := by
  intro fp
  induction fp with
  | nil =>
      intro exts report
      simp [prune]
  | cons e rest ih =>
      intro exts report
      rcases e with ⟨⟨n, d⟩, probs⟩
      by_cases hp : probs.isEmpty
      · have hstep : prune ty (((n, d), probs) :: rest) exts report =
            prune ty rest exts report := by
          simp [prune, hp]
        rw [hstep, ih]
        have hbad : ((((n, d), probs)) :: rest).filter (fun e => !e.2.isEmpty) =
            rest.filter fun e => !e.2.isEmpty :=
          List.filter_cons_of_neg (by simpa using hp)
        simp only [hbad]
      · have hstep : prune ty (((n, d), probs) :: rest) exts report =
            prune ty rest (eraseKey exts n)
              (report ++ problemSummariesFor ty n probs) := by
          simp [prune, hp]
        rw [hstep, ih]
        unfold eraseKey
        rw [List.filter_filter]
        have hbad : ((((n, d), probs)) :: rest).filter (fun e => !e.2.isEmpty) =
            ((n, d), probs) :: (rest.filter fun e => !e.2.isEmpty) :=
          List.filter_cons_of_pos (by simpa using hp)
        simp only [hbad, List.map_cons]
        refine List.filter_congr ?_
        intro a _
        by_cases h1 : a.1 = n <;>
          by_cases h2 : a.1 ∈ (rest.filter fun e => !e.2.isEmpty).map fun e => e.1.1 <;>
          simp [h1, h2]

/-- The first loop of `validate` pairs exactly the input entries, in
order. -/
theorem collect_fst_map {σ : Type} (checks : Checks σ) :
    ∀ (exts : ExtRecord) (s : σ),
      (collectProblems checks s exts).1.map (·.1) = exts := by
  intro exts
  induction exts with
  | nil => intro s; rfl
  | cons e rest ih =>
      intro s
      rcases e with ⟨n, d⟩
      rw [collectProblems_cons]
      simp [ih]

/-- Filtering the bad names out of a unique-key mapping keeps exactly the
entries whose problem list is empty. -/
theorem filter_not_bad_eq :
    ∀ (fp : List ((String × ExtData) × List Problem)),
      ((fp.map (·.1)).map Prod.fst).Nodup →
      ((fp.map (·.1)).filter fun p =>
          p.1 ∉ (fp.filter fun e => !e.2.isEmpty).map fun e => e.1.1) =
        (fp.filter fun e => e.2.isEmpty).map (·.1) := by
  intro fp
  induction fp with
  | nil => intro _; rfl
  | cons e rest ih =>
      intro hnd
      rcases e with ⟨⟨n, d⟩, probs⟩
      simp only [List.map_cons, List.nodup_cons] at hnd
      obtain ⟨hn, hnd'⟩ := hnd
      have hsub : ∀ x ∈ (rest.filter fun e => !e.2.isEmpty).map fun e => e.1.1,
          x ∈ (rest.map (·.1)).map Prod.fst := by
        intro x hx
        rcases List.mem_map.mp hx with ⟨e', he', rfl⟩
        exact List.mem_map.mpr
          ⟨e'.1, List.mem_map.mpr ⟨e', (List.mem_filter.mp he').1, rfl⟩, rfl⟩
      have hn' : n ∉ (rest.filter fun e => !e.2.isEmpty).map fun e => e.1.1 :=
        fun hmem => hn (by simpa using hsub n hmem)
      by_cases hp : probs.isEmpty
      · have hbad : ((((n, d), probs)) :: rest).filter (fun e => !e.2.isEmpty) =
            rest.filter fun e => !e.2.isEmpty :=
          List.filter_cons_of_neg (by simpa using hp)
        simp only [List.map_cons, hbad]
        rw [List.filter_cons_of_pos (by simpa using hn')]
        rw [List.filter_cons_of_pos (by simpa using hp), List.map_cons]
        rw [ih hnd']
      · have hbad : ((((n, d), probs)) :: rest).filter (fun e => !e.2.isEmpty) =
            ((n, d), probs) :: (rest.filter fun e => !e.2.isEmpty) :=
          List.filter_cons_of_pos (by simpa using hp)
        simp only [List.map_cons, hbad]
        rw [List.filter_cons_of_neg (by simp)]
        have hcongr : ∀ a ∈ rest.map (·.1),
            (decide (a.1 ∉ n ::
                ((rest.filter fun e => !e.2.isEmpty).map fun e => e.1.1)) : Bool) =
              decide (a.1 ∉ (rest.filter fun e => !e.2.isEmpty).map fun e => e.1.1) := by
          intro a ha
          have hane : a.1 ≠ n := by
            intro h
            apply hn
            rw [← h]
            exact List.mem_map.mpr ⟨a, ha, rfl⟩
          by_cases h2 : a.1 ∈ (rest.filter fun e => !e.2.isEmpty).map fun e => e.1.1 <;>
            simp [List.mem_cons, hane, h2]
        rw [List.filter_congr hcongr, ih hnd']
        rw [List.filter_cons_of_neg (by simpa using hp)]

end Appium

namespace Appium

/-- C5: for every record mapping with unique keys (JS objects guarantee
this), `validate` returns the input mapping with exactly the entries whose
accumulated problem list (generic, then type-specific, then schema checks)
is non-empty deleted; zero-problem entries are retained unchanged and in
order.  Per-record problems are returned/logged data — `validate` is a
total function into the pruned mapping and the textual report, with no
exception channel. -/
theorem C5_validate_prunes_exactly {σ : Type} (ty : String) (checks : Checks σ)
    (s0 : σ) (exts : ExtRecord) (hnd : (exts.map Prod.fst).Nodup) :
    (ExtensionConfig.validate ty checks s0 exts).1 =
      ((collectProblems checks s0 exts).1.filter fun e => e.2.isEmpty).map (·.1) := by
  rcases hfp : collectProblems checks s0 exts with ⟨fp, sF⟩
  have hm : fp.map (·.1) = exts := by
    have h := collect_fst_map checks exts s0
    rw [hfp] at h
    simpa using h
  have hv : (ExtensionConfig.validate ty checks s0 exts).1 = (prune ty fp exts []).1 := by
    unfold ExtensionConfig.validate
    rw [hfp]
  rw [hv]
  simp only
  rw [prune_fst_eq_filter]
  conv_lhs => rw [← hm]
  exact filter_not_bad_eq fp (by rw [hm]; exact hnd)

/-- Witness for C5: a well-formed record and a record missing almost every
field — validation keeps exactly the well-formed one. -/
theorem C5_validate_prunes_exactly_witness :
    ((([("good", { version := .vStr "1.0.0", pkgName := .vStr "p",
                   installSpec := .vStr "p", installType := .vStr "npm",
                   installPath := .vStr "x", mainClass := .vStr "C" }),
        ("bad", { version := .vStr "1.0.0" })] : ExtRecord).map Prod.fst).Nodup) ∧
    (ExtensionConfig.validate "driver" (ExtensionConfig.checks regOk) ()
        [("good", { version := .vStr "1.0.0", pkgName := .vStr "p",
                    installSpec := .vStr "p", installType := .vStr "npm",
                    installPath := .vStr "x", mainClass := .vStr "C" }),
         ("bad", { version := .vStr "1.0.0" })]).1 =
      ((collectProblems (ExtensionConfig.checks regOk) ()
          [("good", { version := .vStr "1.0.0", pkgName := .vStr "p",
                      installSpec := .vStr "p", installType := .vStr "npm",
                      installPath := .vStr "x", mainClass := .vStr "C" }),
           ("bad", { version := .vStr "1.0.0" })]).1.filter
        fun e => e.2.isEmpty).map (·.1) :=
  ⟨by decide,
    C5_validate_prunes_exactly "driver" (ExtensionConfig.checks regOk) ()
      [("good", { version := .vStr "1.0.0", pkgName := .vStr "p",
                  installSpec := .vStr "p", installType := .vStr "npm",
                  installPath := .vStr "x", mainClass := .vStr "C" }),
       ("bad", { version := .vStr "1.0.0" })] (by decide)⟩

end Appium
